import Mathlib

/-!
Shallow embedding of the AlbumOfTheYearAPI scraping core
(src/albumoftheyearapi/album.py, artist.py, user.py) and proofs about it.

Modelling conventions:
* The network-plus-markup-parse collaborator (urllib + BeautifulSoup) is
  abstracted as a `source` / `web` function parameter, as the spec's §6
  declares it an external capability.  A fetched listing page arrives as a
  list of raw blocks; a fault of the collaborator is an `Except.error`.
* Python exceptions are modelled with `Except String`; the string is the
  message `str(e)` would produce (quotes around names are dropped).
* Machine strings are Lean `String`s; Python page counters are `Nat`
  (they start at 1 and only increase), month/day arguments are `Int`.
-/

deriving instance DecidableEq for Except

namespace AOTY

/-- One release record, mirroring class `Album` in album.py
(`__init__(self, name, artist, date)` stores `name`, `artist`,
`release_date`; `name` holds the album title). -/
structure Album where
  name : String
  artist : String
  release_date : String
deriving DecidableEq, Repr

/-- The `{error, message}` dictionary built by
`AlbumMethods._build_error_response`. -/
structure ErrorResponse where
  error : String
  message : String
deriving DecidableEq, Repr

/-- `AlbumMethods._build_error_response(error_type, msg)`. -/
def build_error_response (error_type msg : String) : ErrorResponse :=
  { error := error_type, message := msg }

/-- A raw listing block, as consumed by `AlbumMethods._parse_albums`.
Each field is the text of the correspondingly classed inner `div`
(`artistTitle`, `albumTitle`, `type`) when `album.find(...)` locates it,
and `none` when `find` returns `None`. -/
structure RawBlock where
  artistTitle : Option String
  albumTitle : Option String
  type : Option String
deriving DecidableEq, Repr

/-- Parsing of one block inside the loop of `_parse_albums`: the three
`find(...).getText()` calls run in source order (artist, title, date); a
missing div makes `getText` blow up on `None`, i.e. an `AttributeError`
propagates. -/
def parse_album_block (b : RawBlock) : Except String Album :=
  match b.artistTitle with
  | none => .error "AttributeError: NoneType object has no attribute getText"
  | some artist =>
    match b.albumTitle with
    | none => .error "AttributeError: NoneType object has no attribute getText"
    | some title =>
      match b.type with
      | none => .error "AttributeError: NoneType object has no attribute getText"
      | some date => .ok { name := title, artist := artist, release_date := date }

/-- `AlbumMethods._parse_albums(unparsed_albums)`: builds one `Album` per
block, in order; the first failing block aborts the whole call. -/
def parse_albums : List RawBlock → Except String (List Album)
  | [] => .ok []
  | b :: rest =>
    match parse_album_block b with
    | .error e => .error e
    | .ok a =>
      match parse_albums rest with
      | .error e => .error e
      | .ok l => .ok (a :: l)

/-- `self.aoty_albums_per_page` set in `AlbumMethods.__init__`. -/
def albumsPerPage : Nat := 60

/-- `self.page_limit` set in `AlbumMethods.__init__`. -/
def pageLimit : Nat := 21

/-- `AlbumMethods._get_upcoming_releases_by_page(page_number)`:
raises when the page number exceeds the page limit, otherwise fetches the
page (the `source` collaborator: URL construction + HTTP + `find_all`)
and parses its blocks. -/
def get_upcoming_releases_by_page (source : Nat → Except String (List RawBlock))
    (page_number : Nat) : Except String (List Album) :=
  if page_number > pageLimit then .error "Page number out of range"
  else
    match source page_number with
    | .error e => .error e
    | .ok blocks => parse_albums blocks

/-- The `for page_number in range(...)` loop of
`AlbumMethods.upcoming_releases_by_limit`, instrumented with the list of
page numbers actually passed to `_get_upcoming_releases_by_page` (second
component).  The `try`/`except` around the fetch becomes the `.error`
branch, which discards the accumulated albums. -/
def upcomingByLimitLoop (source : Nat → Except String (List RawBlock)) :
    List Nat → Nat → List Album → Except ErrorResponse (List Album) × List Nat
  | [], _counter, albums => (.ok albums, [])
  | page :: rest, counter, albums =>
    match get_upcoming_releases_by_page source page with
    | .error e =>
      (.error (build_error_response "Page Limit Error"
        ("Number of albums exceeded page limit. Exception raise: ." ++ e)), [page])
    | .ok pageAlbums =>
      if counter < albumsPerPage then
        let r := upcomingByLimitLoop source rest counter (albums ++ pageAlbums.take counter)
        (r.1, page :: r.2)
      else
        let r := upcomingByLimitLoop source rest (counter - albumsPerPage) (albums ++ pageAlbums)
        (r.1, page :: r.2)

/-- `max_page_number` as computed at the top of
`upcoming_releases_by_limit`: `total // 60`, plus one when
`total % 60 != 0`. -/
def max_page_number (total : Nat) : Nat :=
  total / albumsPerPage + (if total % albumsPerPage ≠ 0 then 1 else 0)

/-- `AlbumMethods.upcoming_releases_by_limit(total)` (the JSON re-encoding
of the success list is the out-of-scope collaborator).  First component:
the returned value; second component: the pages fetched. -/
def upcoming_releases_by_limit (source : Nat → Except String (List RawBlock))
    (total : Nat) : Except ErrorResponse (List Album) × List Nat :=
  upcomingByLimitLoop source (List.range' 1 (max_page_number total)) total []

/-- `AlbumMethods._map_month_number_to_name(month_number)`. -/
def map_month_number_to_name (month_number : Int) : Except String String :=
  if ¬ (1 ≤ month_number ∧ month_number ≤ 12) then .error "Invalid month number"
  else
    .ok ((["Jan", "Feb", "Mar", "Apr", "May", "Jun",
           "Jul", "Aug", "Sep", "Oct", "Nov", "Dec"].getD
           (month_number - 1).toNat ""))

/-- Python `str.strip()` as applied to the date labels in
`_get_upcoming_releases_by_date`: drop whitespace from both ends.
(`String.trim` computes the same value, but through `Substring` byte
arithmetic that the kernel cannot evaluate; this list-level form is
used so that concrete scans reduce.) -/
def pyStrip (s : String) : String :=
  ⟨((s.data.dropWhile Char.isWhitespace).reverse.dropWhile Char.isWhitespace).reverse⟩

/-- The `while not complete` loop of
`AlbumMethods._get_upcoming_releases_by_date`: fetch the current page
(faults propagate), append every album whose `release_date` equals the
target label — scanning the whole page — and stop after the page when
some album carries the next-day label, else move to the next page.
The loop terminates because a successful fetch forces
`page ≤ pageLimit`: page `pageLimit + 1` always faults. -/
def getByDateLoop (source : Nat → Except String (List RawBlock))
    (target_date next_date : String) (page_number : Nat) (result_albums : List Album) :
    Except String (List Album) :=
  match h : get_upcoming_releases_by_page source page_number with
  | .error e => .error e
  | .ok albums =>
    let acc := result_albums ++ albums.filter (fun a => a.release_date == target_date)
    if albums.any (fun a => a.release_date == next_date) then .ok acc
    else getByDateLoop source target_date next_date (page_number + 1) acc
termination_by pageLimit + 2 - page_number
decreasing_by
  have hp : ¬ page_number > pageLimit := by
    intro hgt
    simp [get_upcoming_releases_by_page, hgt] at h
  simp only [pageLimit] at *
  omega

/-- `AlbumMethods._get_upcoming_releases_by_date(month, day)`: resolve the
month label (may raise), build the target and next-day labels, then run
the page loop from page 1. -/
def get_upcoming_releases_by_date (source : Nat → Except String (List RawBlock))
    (month day : Int) : Except String (List Album) :=
  match map_month_number_to_name month with
  | .error e => .error e
  | .ok month_name =>
    getByDateLoop source (pyStrip (month_name ++ " " ++ toString day))
      (pyStrip (month_name ++ " " ++ toString (day + 1))) 1 []

/-- `AlbumMethods.upcoming_releases_by_date(month, day)`: the public
boundary catching every fault of the date scan and converting it into
the structured error record. -/
def upcoming_releases_by_date (source : Nat → Except String (List RawBlock))
    (month day : Int) : Except ErrorResponse (List Album) :=
  match get_upcoming_releases_by_date source month day with
  | .error e => .error (build_error_response "Releases by date Error: " e)
  | .ok l => .ok l

/-- C8: `_map_month_number_to_name` returns the canonical three-letter
labels "Jan" … "Dec" for months 1 … 12 in calendar order, and fails with
the `Invalid month number` exception for every month outside 1..12. -/
theorem month_mapping_correct :
    (map_month_number_to_name 1 = .ok "Jan" ∧
     map_month_number_to_name 2 = .ok "Feb" ∧
     map_month_number_to_name 3 = .ok "Mar" ∧
     map_month_number_to_name 4 = .ok "Apr" ∧
     map_month_number_to_name 5 = .ok "May" ∧
     map_month_number_to_name 6 = .ok "Jun" ∧
     map_month_number_to_name 7 = .ok "Jul" ∧
     map_month_number_to_name 8 = .ok "Aug" ∧
     map_month_number_to_name 9 = .ok "Sep" ∧
     map_month_number_to_name 10 = .ok "Oct" ∧
     map_month_number_to_name 11 = .ok "Nov" ∧
     map_month_number_to_name 12 = .ok "Dec") ∧
    ∀ m : Int, m < 1 ∨ 12 < m →
      map_month_number_to_name m = .error "Invalid month number" := by
  constructor
  · exact ⟨by decide, by decide, by decide, by decide, by decide, by decide,
      by decide, by decide, by decide, by decide, by decide, by decide⟩
  · intro m hm
    have : ¬ (1 ≤ m ∧ m ≤ 12) := by omega
    simp [map_month_number_to_name, this]

/-- Witness for `month_mapping_correct`, applying it at months 0 and 13. -/
theorem month_mapping_correct_witness :
    map_month_number_to_name 0 = .error "Invalid month number" ∧
    map_month_number_to_name 13 = .error "Invalid month number" :=
  ⟨month_mapping_correct.2 0 (by decide), month_mapping_correct.2 13 (by decide)⟩

/-- The text fields a successful parse extracts from a block (the block
is known to carry all three sub-fields). -/
def extracted (b : RawBlock) : Album :=
  { name := b.albumTitle.getD "", artist := b.artistTitle.getD "",
    release_date := b.type.getD "" }

lemma parse_albums_ok_all_some {blocks : List RawBlock}
    (h : ∀ b ∈ blocks, b.artistTitle.isSome ∧ b.albumTitle.isSome ∧ b.type.isSome) :
    parse_albums blocks = .ok (blocks.map extracted) := by
  induction blocks with
  | nil => rfl
  | cons b rest ih =>
    obtain ⟨ha, ht, hd⟩ := h b (by simp)
    obtain ⟨ar, har⟩ := Option.isSome_iff_exists.mp ha
    obtain ⟨ti, hti⟩ := Option.isSome_iff_exists.mp ht
    obtain ⟨da, hda⟩ := Option.isSome_iff_exists.mp hd
    have hrest := ih (fun x hx => h x (by simp [hx]))
    simp only [parse_albums, parse_album_block, har, hti, hda, hrest, List.map_cons]
    simp [extracted, har, hti, hda]

lemma parse_albums_ok_length {blocks : List RawBlock} {l : List Album}
    (h : parse_albums blocks = .ok l) : l.length = blocks.length := by
  induction blocks generalizing l with
  | nil => simp only [parse_albums] at h; cases h; rfl
  | cons b rest ih =>
    simp only [parse_albums] at h
    cases hb : parse_album_block b with
    | error e => rw [hb] at h; cases h
    | ok a =>
      rw [hb] at h
      cases hr : parse_albums rest with
      | error e => rw [hr] at h; cases h
      | ok l2 => rw [hr] at h; cases h; simp [ih hr]

lemma parse_albums_error_of_missing {blocks : List RawBlock} {b : RawBlock}
    (hmem : b ∈ blocks)
    (hmiss : b.artistTitle = none ∨ b.albumTitle = none ∨ b.type = none) :
    ∃ e, parse_albums blocks = .error e := by
  induction blocks with
  | nil => cases hmem
  | cons c rest ih =>
    rcases List.mem_cons.mp hmem with hcb | hmem2
    · subst hcb
      have : parse_album_block b =
          .error "AttributeError: NoneType object has no attribute getText" := by
        rcases hmiss with h1 | h2 | h3
        · simp [parse_album_block, h1]
        · cases ha : b.artistTitle <;> simp [parse_album_block, ha, h2]
        · cases ha : b.artistTitle <;> cases ht : b.albumTitle <;>
            simp [parse_album_block, ha, ht, h3]
      exact ⟨"AttributeError: NoneType object has no attribute getText",
        by simp [parse_albums, this]⟩
    · cases hc : parse_album_block c with
      | error e => exact ⟨e, by simp [parse_albums, hc]⟩
      | ok a =>
        obtain ⟨e, he⟩ := ih hmem2
        exact ⟨e, by simp [parse_albums, hc, he]⟩

/-- C9: `_parse_albums` yields one `Album` per block (never skipping or
truncating); a block missing any of the three sub-fields makes the whole
parse fail with the propagated `AttributeError`; the empty input parses
to the empty list, not an error. -/
theorem parse_albums_correct (blocks : List RawBlock) :
    parse_albums [] = .ok [] ∧
    ((∀ b ∈ blocks, b.artistTitle.isSome ∧ b.albumTitle.isSome ∧ b.type.isSome) →
      parse_albums blocks = .ok (blocks.map extracted)) ∧
    (∀ l, parse_albums blocks = .ok l → l.length = blocks.length) ∧
    (∀ b ∈ blocks,
      (b.artistTitle = none ∨ b.albumTitle = none ∨ b.type = none) →
      ∃ e, parse_albums blocks = .error e) :=
  ⟨rfl, parse_albums_ok_all_some, fun _ => parse_albums_ok_length,
   fun _ hmem hmiss => parse_albums_error_of_missing hmem hmiss⟩

lemma upcomingByLimitLoop_nil (source : Nat → Except String (List RawBlock))
    (counter : Nat) (albums : List Album) :
    upcomingByLimitLoop source [] counter albums = (.ok albums, []) := rfl

lemma upcomingByLimitLoop_cons_ok {source : Nat → Except String (List RawBlock)}
    {page : Nat} {pageAlbums : List Album} (rest : List Nat) (counter : Nat)
    (albums : List Album)
    (hfetch : get_upcoming_releases_by_page source page = .ok pageAlbums) :
    upcomingByLimitLoop source (page :: rest) counter albums =
      if counter < albumsPerPage then
        ((upcomingByLimitLoop source rest counter (albums ++ pageAlbums.take counter)).1,
         page :: (upcomingByLimitLoop source rest counter (albums ++ pageAlbums.take counter)).2)
      else
        ((upcomingByLimitLoop source rest (counter - albumsPerPage) (albums ++ pageAlbums)).1,
         page :: (upcomingByLimitLoop source rest (counter - albumsPerPage) (albums ++ pageAlbums)).2) := by
  simp only [upcomingByLimitLoop, hfetch]

lemma upcomingByLimitLoop_cons_err {source : Nat → Except String (List RawBlock)}
    {page : Nat} {e : String} (rest : List Nat) (counter : Nat) (albums : List Album)
    (hfetch : get_upcoming_releases_by_page source page = .error e) :
    upcomingByLimitLoop source (page :: rest) counter albums =
      (.error (build_error_response "Page Limit Error"
        ("Number of albums exceeded page limit. Exception raise: ." ++ e)), [page]) := by
  simp only [upcomingByLimitLoop, hfetch]

lemma upcomingByLimitLoop_success (source : Nat → Except String (List RawBlock))
    (pages : Nat → List Album) :
    ∀ (m p counter : Nat) (acc : List Album),
      (∀ q ∈ List.range' p (m + 1),
        get_upcoming_releases_by_page source q = .ok (pages q) ∧
        (pages q).length = albumsPerPage) →
      albumsPerPage * m < counter → counter ≤ albumsPerPage * (m + 1) →
      upcomingByLimitLoop source (List.range' p (m + 1)) counter acc =
        (.ok (acc ++ ((List.range' p m).flatMap pages ++
            (pages (p + m)).take (counter - albumsPerPage * m))),
         List.range' p (m + 1)) := by
  intro m
  induction m with
  | zero =>
    intro p counter acc hok hlo hhi
    obtain ⟨hfetch, hlen⟩ := hok p (by simp [List.range'_succ])
    have hr : List.range' p 1 = [p] := rfl
    rw [hr, upcomingByLimitLoop_cons_ok [] counter acc hfetch]
    by_cases hc : counter < albumsPerPage
    · rw [if_pos hc, upcomingByLimitLoop_nil]
      simp
    · have hceq : counter = albumsPerPage := by omega
      have htake : (pages p).take counter = pages p := by
        rw [hceq, ← hlen]; exact (pages p).take_length
      rw [if_neg hc, upcomingByLimitLoop_nil]
      simp [htake]
  | succ m ih =>
    intro p counter acc hok hlo hhi
    obtain ⟨hfetch, -⟩ := hok p (by simp [List.range'_succ])
    have hnotlt : ¬ counter < albumsPerPage := by
      simp only [albumsPerPage] at hlo ⊢; omega
    have hih := ih (p + 1) (counter - albumsPerPage) (acc ++ pages p)
      (fun q hq => hok q (by rw [List.range'_succ]; exact List.mem_cons_of_mem _ hq))
      (by simp only [albumsPerPage] at hlo ⊢; omega)
      (by simp only [albumsPerPage] at hhi ⊢; omega)
    have hr : List.range' p (m + 1 + 1) = p :: List.range' (p + 1) (m + 1) :=
      List.range'_succ p (m + 1) 1
    rw [hr, upcomingByLimitLoop_cons_ok _ counter acc hfetch, if_neg hnotlt, hih]
    have h1 : p + 1 + m = p + (m + 1) := by omega
    have h2 : counter - albumsPerPage - albumsPerPage * m =
        counter - albumsPerPage * (m + 1) := by
      simp only [albumsPerPage]; omega
    have hr2 : List.range' p (m + 1) = p :: List.range' (p + 1) m :=
      List.range'_succ p m 1
    rw [h1, h2, hr2, List.flatMap_cons]
    simp [List.append_assoc]

lemma flatMap_length_const (pages : Nat → List Album) :
    ∀ L : List Nat, (∀ q ∈ L, (pages q).length = albumsPerPage) →
      (L.flatMap pages).length = albumsPerPage * L.length := by
  intro L
  induction L with
  | nil => simp
  | cons a l ih =>
    intro h
    simp only [List.flatMap_cons, List.length_append, List.length_cons,
      h a (by simp), ih (fun q hq => h q (by simp [hq]))]
    ring

/-- C1: for every `total ≥ 0` the by-count scan plans exactly
`ceil(total / 60)` pages; `total = 0` performs zero fetches and returns
the empty list whatever the source does; and when every fetched page
yields exactly 60 records the scan fetches exactly those
`ceil(total / 60)` pages and succeeds with exactly `total` records —
every full page appended whole, the final page truncated to the
remainder. -/
theorem by_count_scan_correct (total : Nat)
    (source : Nat → Except String (List RawBlock)) (pages : Nat → List Album)
    (hok : ∀ q ∈ List.range' 1 (max_page_number total),
      get_upcoming_releases_by_page source q = .ok (pages q) ∧
      (pages q).length = albumsPerPage) :
    max_page_number total = (total + albumsPerPage - 1) / albumsPerPage ∧
    (∀ src : Nat → Except String (List RawBlock),
      upcoming_releases_by_limit src 0 = (.ok [], [])) ∧
    (upcoming_releases_by_limit source total).2 =
      List.range' 1 (max_page_number total) ∧
    ∃ L, (upcoming_releases_by_limit source total).1 = .ok L ∧
      L.length = total ∧
      (total = 0 → L = []) ∧
      (0 < total →
        L = (List.range' 1 (max_page_number total - 1)).flatMap pages ++
          (pages (max_page_number total)).take
            (total - albumsPerPage * (max_page_number total - 1))) := by
  have hceil : max_page_number total = (total + albumsPerPage - 1) / albumsPerPage := by
    simp only [max_page_number, albumsPerPage, ne_eq]
    by_cases h : total % 60 = 0
    · simp only [h, not_true_eq_false, if_false]
      omega
    · simp only [h, not_false_eq_true, if_true]
      omega
  refine ⟨hceil, fun src => rfl, ?_⟩
  rcases Nat.eq_zero_or_pos total with h0 | hpos
  · subst h0
    exact ⟨rfl, [], rfl, rfl, fun _ => rfl, fun h => absurd h (by omega)⟩
  · obtain ⟨m, hm⟩ : ∃ m, max_page_number total = m + 1 := by
      simp only [max_page_number, albumsPerPage, ne_eq]
      by_cases h : total % 60 = 0
      · simp only [h, not_true_eq_false, if_false]
        exact ⟨total / 60 - 1, by omega⟩
      · simp only [h, not_false_eq_true, if_true]
        exact ⟨total / 60, by omega⟩
    have hbounds : albumsPerPage * m < total ∧ total ≤ albumsPerPage * (m + 1) := by
      simp only [max_page_number, albumsPerPage, ne_eq] at hm
      simp only [albumsPerPage]
      by_cases h : total % 60 = 0
      · simp only [h, not_true_eq_false, if_false] at hm
        omega
      · simp only [h, not_false_eq_true, if_true] at hm
        omega
    have hrun := upcomingByLimitLoop_success source pages m 1 total []
      (by rw [← hm]; exact hok) hbounds.1 hbounds.2
    have hres : upcoming_releases_by_limit source total =
        (.ok ((List.range' 1 m).flatMap pages ++
          (pages (1 + m)).take (total - albumsPerPage * m)),
         List.range' 1 (m + 1)) := by
      rw [upcoming_releases_by_limit, hm, hrun]; simp
    constructor
    · rw [hres, hm]
    · refine ⟨_, by rw [hres], ?_, fun h => absurd h (by omega), ?_⟩
      · have hsub : ∀ q ∈ List.range' 1 m, (pages q).length = albumsPerPage := by
          intro q hq
          refine (hok q ?_).2
          rw [hm, List.range'_1_concat]
          exact List.mem_append_left _ hq
        have hlf : ((List.range' 1 m).flatMap pages).length = albumsPerPage * m := by
          rw [flatMap_length_const pages _ hsub, List.length_range']
        have hplen : (pages (1 + m)).length = albumsPerPage := by
          refine (hok (1 + m) ?_).2
          rw [hm, List.range'_1_concat]
          simp [Nat.add_comm]
        simp only [List.length_append, hlf, List.length_take, hplen]
        simp only [albumsPerPage] at hbounds ⊢
        omega
      · intro _
        rw [hm]
        simp [Nat.add_comm 1 m]

/-- Witness for `by_count_scan_correct`: a source whose pages all hold 60
well-formed blocks, asked for 125 records, fetches pages 1, 2, 3 and
returns exactly 125 records. -/
theorem by_count_scan_correct_witness :
    (upcoming_releases_by_limit
        (fun _ => .ok (List.replicate 60 ⟨some "a", some "t", some "d"⟩)) 125).2 =
      [1, 2, 3] ∧
    ∃ L, (upcoming_releases_by_limit
        (fun _ => .ok (List.replicate 60 ⟨some "a", some "t", some "d"⟩)) 125).1 =
      .ok L ∧ L.length = 125 := by
  have h := by_count_scan_correct 125
    (fun _ => .ok (List.replicate 60 ⟨some "a", some "t", some "d"⟩))
    (fun _ => List.replicate 60 { name := "t", artist := "a", release_date := "d" })
    (by decide)
  obtain ⟨-, -, hlog, L, hok, hlen, -⟩ := h
  exact ⟨by rw [hlog]; rfl, L, hok, hlen⟩

lemma upcomingByLimitLoop_first_error (source : Nat → Except String (List RawBlock))
    (e : String) :
    ∀ (j m p counter : Nat) (acc : List Album),
      j < m →
      (∀ q, p ≤ q → q < p + j → ∃ l, get_upcoming_releases_by_page source q = .ok l) →
      get_upcoming_releases_by_page source (p + j) = .error e →
      upcomingByLimitLoop source (List.range' p m) counter acc =
        (.error (build_error_response "Page Limit Error"
          ("Number of albums exceeded page limit. Exception raise: ." ++ e)),
         List.range' p (j + 1)) := by
  intro j
  induction j with
  | zero =>
    intro m p counter acc hjm hbefore herr
    obtain ⟨m2, rfl⟩ : ∃ m2, m = m2 + 1 := ⟨m - 1, by omega⟩
    have hr : List.range' p (m2 + 1) = p :: List.range' (p + 1) m2 :=
      List.range'_succ p m2 1
    rw [hr, upcomingByLimitLoop_cons_err _ counter acc (by simpa using herr)]
    rfl
  | succ j ih =>
    intro m p counter acc hjm hbefore herr
    obtain ⟨m2, rfl⟩ : ∃ m2, m = m2 + 1 := ⟨m - 1, by omega⟩
    obtain ⟨l, hl⟩ := hbefore p (le_refl p) (by omega)
    have hr : List.range' p (m2 + 1) = p :: List.range' (p + 1) m2 :=
      List.range'_succ p m2 1
    have herr2 : get_upcoming_releases_by_page source (p + 1 + j) = .error e := by
      have hpj : p + 1 + j = p + (j + 1) := by omega
      rw [hpj]; exact herr
    have hbefore2 : ∀ q, p + 1 ≤ q → q < p + 1 + j →
        ∃ l2, get_upcoming_releases_by_page source q = .ok l2 :=
      fun q h1 h2 => hbefore q (by omega) (by omega)
    have hrout : List.range' p (j + 1 + 1) = p :: List.range' (p + 1) (j + 1) :=
      List.range'_succ p (j + 1) 1
    rw [hr, upcomingByLimitLoop_cons_ok _ counter acc hl]
    by_cases hc : counter < albumsPerPage
    · rw [if_pos hc,
        ih m2 (p + 1) counter (acc ++ l.take counter) (by omega) hbefore2 herr2, hrout]
    · rw [if_neg hc,
        ih m2 (p + 1) (counter - albumsPerPage) (acc ++ l) (by omega) hbefore2 herr2,
        hrout]

lemma upcomingByLimitLoop_error_shape (source : Nat → Except String (List RawBlock)) :
    ∀ (L : List Nat) (counter : Nat) (acc : List Album) (er : ErrorResponse),
      (upcomingByLimitLoop source L counter acc).1 = .error er →
      er.error = "Page Limit Error" := by
  intro L
  induction L with
  | nil =>
    intro counter acc er h
    rw [upcomingByLimitLoop_nil] at h
    cases h
  | cons p rest ih =>
    intro counter acc er h
    cases hf : get_upcoming_releases_by_page source p with
    | error e =>
      rw [upcomingByLimitLoop_cons_err rest counter acc hf] at h
      have h2 := Except.error.inj h
      rw [← h2]
      rfl
    | ok pa =>
      rw [upcomingByLimitLoop_cons_ok rest counter acc hf] at h
      by_cases hc : counter < albumsPerPage
      · rw [if_pos hc] at h; exact ih _ _ _ h
      · rw [if_neg hc] at h; exact ih _ _ _ h

/-- C3: a fault while fetching page `k` of the by-count scan (pages
before `k` having succeeded) makes `upcoming_releases_by_limit` return
the structured `Page Limit Error` record carrying the fault's detail —
never the partial accumulation; moreover every error the by-count entry
point can return carries the `Page Limit Error` category, and the
by-date entry point converts every fault of its scan into the structured
`Releases by date Error: ` record (both boundaries return, not raise). -/
theorem scan_error_conversion (total : Nat)
    (source : Nat → Except String (List RawBlock)) (k : Nat) (e : String)
    (hk1 : 1 ≤ k) (hk2 : k ≤ max_page_number total)
    (hbefore : ∀ q, 1 ≤ q → q < k →
      ∃ l, get_upcoming_releases_by_page source q = .ok l)
    (herr : get_upcoming_releases_by_page source k = .error e) :
    (upcoming_releases_by_limit source total).1 =
      .error (build_error_response "Page Limit Error"
        ("Number of albums exceeded page limit. Exception raise: ." ++ e)) ∧
    (∀ (src : Nat → Except String (List RawBlock)) (t : Nat) (er : ErrorResponse),
      (upcoming_releases_by_limit src t).1 = .error er →
      er.error = "Page Limit Error") ∧
    (∀ (src : Nat → Except String (List RawBlock)) (mo dy : Int) (e2 : String),
      get_upcoming_releases_by_date src mo dy = .error e2 →
      upcoming_releases_by_date src mo dy =
        .error (build_error_response "Releases by date Error: " e2)) ∧
    (∀ (src : Nat → Except String (List RawBlock)) (mo dy : Int) (l : List Album),
      get_upcoming_releases_by_date src mo dy = .ok l →
      upcoming_releases_by_date src mo dy = .ok l) := by
  refine ⟨?_, ?_, ?_, ?_⟩
  · have h := upcomingByLimitLoop_first_error source e (k - 1) (max_page_number total)
      1 total [] (by omega)
      (fun q h1 h2 => hbefore q h1 (by omega))
      (by have hk : 1 + (k - 1) = k := by omega
          rw [hk]; exact herr)
    rw [upcoming_releases_by_limit, h]
  · intro src t er h
    exact upcomingByLimitLoop_error_shape src _ _ _ _ h
  · intro src mo dy e2 h
    rw [upcoming_releases_by_date, h]
  · intro src mo dy l h
    rw [upcoming_releases_by_date, h]

/-- Witness for `scan_error_conversion`: asking for 1261 records (22
pages) over a source of empty pages makes page 22 hit the page limit;
the entry point returns the structured record, and the fetch log shows
the scan stopped at page 22. -/
theorem scan_error_conversion_witness :
    (upcoming_releases_by_limit (fun _ => .ok []) 1261).1 =
      .error (build_error_response "Page Limit Error"
        ("Number of albums exceeded page limit. Exception raise: ." ++
          "Page number out of range")) := by
  have h := scan_error_conversion 1261 (fun _ => .ok []) 22 "Page number out of range"
    (by omega) (by decide)
    (fun q h1 h2 => ⟨[], by
      simp only [get_upcoming_releases_by_page, pageLimit]
      rw [if_neg (by omega)]
      rfl⟩)
    (by decide)
  exact h.1

lemma getByDateLoop_err {source : Nat → Except String (List RawBlock)}
    {target nextd : String} {page : Nat} {acc : List Album} {e : String}
    (hf : get_upcoming_releases_by_page source page = .error e) :
    getByDateLoop source target nextd page acc = .error e := by
  conv_lhs => unfold getByDateLoop
  split
  · next e2 he => rw [hf] at he; cases he; rfl
  · next albums2 ha => rw [hf] at ha; cases ha

lemma getByDateLoop_ok {source : Nat → Except String (List RawBlock)}
    {target nextd : String} {page : Nat} {acc : List Album} {albums : List Album}
    (hf : get_upcoming_releases_by_page source page = .ok albums) :
    getByDateLoop source target nextd page acc =
      if albums.any (fun a => a.release_date == nextd) then
        .ok (acc ++ albums.filter (fun a => a.release_date == target))
      else
        getByDateLoop source target nextd (page + 1)
          (acc ++ albums.filter (fun a => a.release_date == target)) := by
  conv_lhs => unfold getByDateLoop
  split
  · next e2 he => rw [hf] at he; cases he
  · next albums2 ha =>
    rw [hf] at ha
    cases ha
    rfl

lemma getByDateLoop_run (source : Nat → Except String (List RawBlock))
    (pages : Nat → List Album) (target nextd : String) :
    ∀ (d p : Nat) (acc : List Album),
      p + d ≤ pageLimit →
      (∀ q, p ≤ q → q ≤ p + d → get_upcoming_releases_by_page source q = .ok (pages q)) →
      (∀ q, p ≤ q → q < p + d → ∀ a ∈ pages q, a.release_date ≠ nextd) →
      (∃ a ∈ pages (p + d), a.release_date = nextd) →
      getByDateLoop source target nextd p acc =
        .ok (acc ++ ((List.range' p (d + 1)).flatMap pages).filter
          (fun a => a.release_date == target)) := by
  intro d
  induction d with
  | zero =>
    intro p acc hlim hok hnone hstop
    have hf := hok p (le_refl p) (by omega)
    rw [getByDateLoop_ok hf]
    have hany : (pages p).any (fun a => a.release_date == nextd) = true := by
      rw [List.any_eq_true]
      obtain ⟨a, ha, hd⟩ := hstop
      exact ⟨a, by simpa using ha, by simpa using hd⟩
    rw [hany]
    have hr : List.range' p 1 = [p] := rfl
    rw [hr]
    simp
  | succ d ih =>
    intro p acc hlim hok hnone hstop
    have hf := hok p (le_refl p) (by omega)
    rw [getByDateLoop_ok hf]
    have hany : (pages p).any (fun a => a.release_date == nextd) = false := by
      rw [List.any_eq_false]
      intro a ha
      simpa using hnone p (le_refl p) (by omega) a ha
    rw [hany]
    simp only [Bool.false_eq_true, if_false]
    have hstep : p + 1 + d = p + (d + 1) := by omega
    have hih := ih (p + 1) (acc ++ (pages p).filter (fun a => a.release_date == target))
      (by omega)
      (fun q h1 h2 => hok q (by omega) (by omega))
      (fun q h1 h2 => hnone q (by omega) (by omega))
      (by rw [hstep]; exact hstop)
    rw [hih]
    have hr : List.range' p (d + 1 + 1) = p :: List.range' (p + 1) (d + 1) :=
      List.range'_succ p (d + 1) 1
    rw [hr, List.flatMap_cons, List.filter_append, List.append_assoc]

lemma getByDateLoop_exhaust (source : Nat → Except String (List RawBlock))
    (pages : Nat → List Album) (target nextd : String) :
    ∀ (d p : Nat) (acc : List Album),
      p + d = pageLimit + 1 →
      (∀ q, p ≤ q → q ≤ pageLimit → get_upcoming_releases_by_page source q = .ok (pages q)) →
      (∀ q, p ≤ q → q ≤ pageLimit → ∀ a ∈ pages q, a.release_date ≠ nextd) →
      getByDateLoop source target nextd p acc = .error "Page number out of range" := by
  intro d
  induction d with
  | zero =>
    intro p acc hp hok hnone
    have hf : get_upcoming_releases_by_page source p = .error "Page number out of range" := by
      simp only [get_upcoming_releases_by_page]
      rw [if_pos (by omega)]
    exact getByDateLoop_err hf
  | succ d ih =>
    intro p acc hp hok hnone
    have hf := hok p (le_refl p) (by omega)
    rw [getByDateLoop_ok hf]
    have hany : (pages p).any (fun a => a.release_date == nextd) = false := by
      rw [List.any_eq_false]
      intro a ha
      simpa using hnone p (le_refl p) (by omega) a ha
    rw [hany]
    simp only [Bool.false_eq_true, if_false]
    exact ih (p + 1) _ (by omega)
      (fun q h1 h2 => hok q (by omega) h2)
      (fun q h1 h2 => hnone q (by omega) h2)

lemma by_date_scan_run (source : Nat → Except String (List RawBlock))
    (pages : Nat → List Album) (month day : Int) (month_name : String) (k : Nat)
    (hm : map_month_number_to_name month = .ok month_name)
    (hk1 : 1 ≤ k) (hk2 : k ≤ pageLimit)
    (hok : ∀ q, 1 ≤ q → q ≤ k →
      get_upcoming_releases_by_page source q = .ok (pages q))
    (hnone : ∀ q, 1 ≤ q → q < k → ∀ a ∈ pages q,
      a.release_date ≠ pyStrip (month_name ++ " " ++ toString (day + 1)))
    (hstop : ∃ a ∈ pages k,
      a.release_date = pyStrip (month_name ++ " " ++ toString (day + 1))) :
    get_upcoming_releases_by_date source month day =
      .ok (((List.range' 1 k).flatMap pages).filter
        (fun a => a.release_date == pyStrip (month_name ++ " " ++ toString day))) := by
  have hd : 1 + (k - 1) = k := by omega
  have hrun := getByDateLoop_run source pages
    (pyStrip (month_name ++ " " ++ toString day))
    (pyStrip (month_name ++ " " ++ toString (day + 1)))
    (k - 1) 1 []
    (by omega)
    (by rw [hd]; exact hok)
    (by rw [hd]; exact hnone)
    (by rw [hd]; exact hstop)
  have hk : k - 1 + 1 = k := by omega
  rw [hk] at hrun
  simp only [get_upcoming_releases_by_date, hm, hrun, List.nil_append]

/-- C2: with a resolvable month, if pages `1..k` fetch cleanly, no page
before `k` holds a next-day release and page `k` holds one, then the
date scan returns exactly the target-dated releases of pages `1..k` in
page-then-position order (so the rest of page `k` after a next-day item
is still scanned, and no page past `k` is ever fetched — the result does
not depend on the source beyond page `k`). -/
theorem by_date_scan_correct (source : Nat → Except String (List RawBlock))
    (pages : Nat → List Album) (month day : Int) (month_name : String) (k : Nat)
    (hm : map_month_number_to_name month = .ok month_name)
    (hk1 : 1 ≤ k) (hk2 : k ≤ pageLimit)
    (hok : ∀ q, 1 ≤ q → q ≤ k →
      get_upcoming_releases_by_page source q = .ok (pages q))
    (hnone : ∀ q, 1 ≤ q → q < k → ∀ a ∈ pages q,
      a.release_date ≠ pyStrip (month_name ++ " " ++ toString (day + 1)))
    (hstop : ∃ a ∈ pages k,
      a.release_date = pyStrip (month_name ++ " " ++ toString (day + 1))) :
    get_upcoming_releases_by_date source month day =
      .ok (((List.range' 1 k).flatMap pages).filter
        (fun a => a.release_date == pyStrip (month_name ++ " " ++ toString day))) :=
  by_date_scan_run source pages month day month_name k hm hk1 hk2 hok hnone hstop

/-- Witness for `by_date_scan_correct`: the spec's concrete example.
Page 1 is `[Jan1, Jan1, Jan2, Jan1, Jan3, Jan4, Jan1]`; every later page
faults with a transport error, yet the `(month=1, day=1)` scan succeeds
with the four Jan-1 records in original order — demonstrating page 2 is
never fetched. -/
theorem by_date_scan_correct_witness :
    get_upcoming_releases_by_date
        (fun q => if q = 1 then
          .ok [⟨some "ar1", some "t1", some "Jan 1"⟩,
               ⟨some "ar2", some "t2", some "Jan 1"⟩,
               ⟨some "ar3", some "t3", some "Jan 2"⟩,
               ⟨some "ar4", some "t4", some "Jan 1"⟩,
               ⟨some "ar5", some "t5", some "Jan 3"⟩,
               ⟨some "ar6", some "t6", some "Jan 4"⟩,
               ⟨some "ar7", some "t7", some "Jan 1"⟩]
          else .error "TransportError") 1 1 =
      .ok [{ name := "t1", artist := "ar1", release_date := "Jan 1" },
           { name := "t2", artist := "ar2", release_date := "Jan 1" },
           { name := "t4", artist := "ar4", release_date := "Jan 1" },
           { name := "t7", artist := "ar7", release_date := "Jan 1" }] ∧
    (fun q => if q = 1 then
          (.ok [] : Except String (List RawBlock))
          else .error "TransportError") 2 = .error "TransportError" := by
  constructor
  · have h := by_date_scan_correct
      (fun q => if q = 1 then
        .ok [⟨some "ar1", some "t1", some "Jan 1"⟩,
             ⟨some "ar2", some "t2", some "Jan 1"⟩,
             ⟨some "ar3", some "t3", some "Jan 2"⟩,
             ⟨some "ar4", some "t4", some "Jan 1"⟩,
             ⟨some "ar5", some "t5", some "Jan 3"⟩,
             ⟨some "ar6", some "t6", some "Jan 4"⟩,
             ⟨some "ar7", some "t7", some "Jan 1"⟩]
        else .error "TransportError")
      (fun q => if q = 1 then
        [{ name := "t1", artist := "ar1", release_date := "Jan 1" },
         { name := "t2", artist := "ar2", release_date := "Jan 1" },
         { name := "t3", artist := "ar3", release_date := "Jan 2" },
         { name := "t4", artist := "ar4", release_date := "Jan 1" },
         { name := "t5", artist := "ar5", release_date := "Jan 3" },
         { name := "t6", artist := "ar6", release_date := "Jan 4" },
         { name := "t7", artist := "ar7", release_date := "Jan 1" }]
        else [])
      1 1 "Jan" 1 (by decide) (by omega) (by decide)
      (by intro q h1 h2
          have hq : q = 1 := by omega
          subst hq
          decide)
      (fun q h1 h2 => absurd h2 (by omega))
      (by decide)
    rw [h]
    decide
  · rfl

/-- C6: with a resolvable month the date scan always terminates, in one
of exactly two ways: if pages `1..21` all fetch cleanly and none of them
holds a next-day release, the page counter passes the page limit and the
scan aborts with the page-fetch fault; while if some page `k ≤ 21` holds
a next-day release (pages up to `k` fetching cleanly, earlier pages
holding none), the scan stops normally after page `k` with a result. -/
theorem by_date_scan_terminates (source : Nat → Except String (List RawBlock))
    (pages : Nat → List Album) (month day : Int) (month_name : String)
    (hm : map_month_number_to_name month = .ok month_name) :
    ((∀ q, 1 ≤ q → q ≤ pageLimit →
        get_upcoming_releases_by_page source q = .ok (pages q)) →
     (∀ q, 1 ≤ q → q ≤ pageLimit → ∀ a ∈ pages q,
        a.release_date ≠ pyStrip (month_name ++ " " ++ toString (day + 1))) →
     get_upcoming_releases_by_date source month day =
       .error "Page number out of range") ∧
    (∀ k, 1 ≤ k → k ≤ pageLimit →
     (∀ q, 1 ≤ q → q ≤ k →
        get_upcoming_releases_by_page source q = .ok (pages q)) →
     (∀ q, 1 ≤ q → q < k → ∀ a ∈ pages q,
        a.release_date ≠ pyStrip (month_name ++ " " ++ toString (day + 1))) →
     (∃ a ∈ pages k,
        a.release_date = pyStrip (month_name ++ " " ++ toString (day + 1))) →
     ∃ l, get_upcoming_releases_by_date source month day = .ok l) := by
  constructor
  · intro hok hnone
    have hrun := getByDateLoop_exhaust source pages
      (pyStrip (month_name ++ " " ++ toString day))
      (pyStrip (month_name ++ " " ++ toString (day + 1)))
      pageLimit 1 []
      (by simp [pageLimit])
      (fun q h1 h2 => hok q h1 h2)
      (fun q h1 h2 => hnone q h1 h2)
    simp only [get_upcoming_releases_by_date, hm, hrun]
  · intro k hk1 hk2 hok hnone hstop
    exact ⟨_, by_date_scan_run source pages month day month_name k
      hm hk1 hk2 hok hnone hstop⟩

/-- Witness for `by_date_scan_terminates`: over a source of empty pages
(no next-day label anywhere) the `(month=1, day=1)` scan runs to page 22
and aborts with the page-range fault; over a source whose first page
holds a Jan-2 release the same scan stops normally with a result. -/
theorem by_date_scan_terminates_witness :
    get_upcoming_releases_by_date (fun _ => .ok []) 1 1 =
      .error "Page number out of range" ∧
    ∃ l, get_upcoming_releases_by_date
      (fun _ => .ok [⟨some "ar", some "t", some "Jan 2"⟩]) 1 1 = .ok l := by
  constructor
  · exact (by_date_scan_terminates (fun _ => .ok []) (fun _ => []) 1 1 "Jan"
      (by decide)).1
      (fun q h1 h2 => by
        simp only [get_upcoming_releases_by_page, pageLimit] at h2 ⊢
        rw [if_neg (by omega)]
        rfl)
      (fun q h1 h2 => by simp)
  · exact (by_date_scan_terminates
      (fun _ => .ok [⟨some "ar", some "t", some "Jan 2"⟩])
      (fun _ => [{ name := "t", artist := "ar", release_date := "Jan 2" }]) 1 1 "Jan"
      (by decide)).2 1 (by omega) (by decide)
      (fun q h1 h2 => by
        simp only [get_upcoming_releases_by_page, pageLimit] at h2 ⊢
        rw [if_neg (by omega)]
        rfl)
      (fun q h1 h2 => absurd h2 (by omega))
      (by decide)

/-- Witness for `parse_albums_correct`: a two-block list parses to two
records; inserting a block with no `albumTitle` div makes the parse fail. -/
theorem parse_albums_correct_witness :
    parse_albums [⟨some "a1", some "t1", some "d1"⟩, ⟨some "a2", some "t2", some "d2"⟩] =
      .ok [{ name := "t1", artist := "a1", release_date := "d1" },
           { name := "t2", artist := "a2", release_date := "d2" }] ∧
    ∃ e, parse_albums [⟨some "a1", some "t1", some "d1"⟩, ⟨some "a2", none, some "d2"⟩] =
      .error e := by
  refine ⟨?_, ?_⟩
  · have := (parse_albums_correct
      [⟨some "a1", some "t1", some "d1"⟩, ⟨some "a2", some "t2", some "d2"⟩]).2.1
      (by decide)
    simpa [extracted] using this
  · exact (parse_albums_correct
      [⟨some "a1", some "t1", some "d1"⟩, ⟨some "a2", none, some "d2"⟩]).2.2.2
      ⟨some "a2", none, some "d2"⟩ (by decide) (by decide)

/-- One element of the `find_all(["h2", "div"])` scan in
`ArtistMethods.__get_discography`: either a heading (its
`get_text(strip=True)` value) or a content `div`, carrying the text of a
nested `div.name` and of a nested `div.albumTitle` when those exist (the
stored strings are the post-processed
`get_text().encode("ascii","ignore").decode().strip()` values). -/
inductive ArtistElement where
  | h2 (text : String)
  | div (nameDiv : Option String) (albumTitleDiv : Option String)
deriving DecidableEq, Repr

/-- A fetched-and-parsed artist page: the heading/div scan sequence and,
for `__get_community_data`, one entry per `tr` row — `some t` when the
row holds a `td.songAlbum` with an `a` link of stripped text `t`. -/
structure ArtistDoc where
  elements : List ArtistElement
  rows : List (Option String)
deriving DecidableEq, Repr

/-- `categorized_albums[k] = []`: (re)bind key `k` to the empty list,
keeping the dict's insertion order. -/
def setKey (m : List (String × List String)) (k : String) :
    List (String × List String) :=
  match m with
  | [] => [(k, [])]
  | (k2, v) :: rest => if k2 = k then (k, []) :: rest else (k2, v) :: setKey rest k

/-- `categorized_albums[k].append(x)` (the key is always present when
this runs, since every heading immediately creates its key). -/
def appendKey (m : List (String × List String)) (k : String) (x : String) :
    List (String × List String) :=
  match m with
  | [] => []
  | (k2, v) :: rest =>
    if k2 = k then (k2, v ++ [x]) :: rest else (k2, v) :: appendKey rest k x

/-- `categorized_albums[k]` as a lookup (`none` models the `KeyError`). -/
def lookupKey (m : List (String × List String)) (k : String) :
    Option (List String) :=
  match m with
  | [] => none
  | (k2, v) :: rest => if k2 = k then some v else lookupKey rest k

/-- One iteration of the `for element in elements` loop of
`__get_discography`.  State: the `current_category` cursor and the
`categorized_albums` dict.  An `h2` opens (and resets) its category; a
`div` is appended via the `name` sub-field under the literal category
`"Similar Artists"`, via the `albumTitle` sub-field under any other
truthy (non-empty) category, and is skipped otherwise. -/
def classifyStep (st : Option String × List (String × List String))
    (e : ArtistElement) : Option String × List (String × List String) :=
  match e with
  | .h2 t => (some t, setKey st.2 t)
  | .div nameDiv albumTitleDiv =>
    match st.1 with
    | none => st
    | some cat =>
      if cat = "Similar Artists" then
        match nameDiv with
        | some nm => (st.1, appendKey st.2 cat nm)
        | none => st
      else if cat ≠ "" then
        match albumTitleDiv with
        | some t => (st.1, appendKey st.2 cat t)
        | none => st
      else st

/-- The full linear scan of `__get_discography` building
`categorized_albums`. -/
def classifyDoc (elements : List ArtistElement) : List (String × List String) :=
  (elements.foldl classifyStep (none, [])).2

/-- The mutable state of an `ArtistMethods` instance.  `__init__` sets
`artist`, `url` and `albums`; the remaining collection attributes are
first created by `__set_artist_page` and are modelled as initially
empty. -/
structure ArtistMethods where
  artist : String
  url : String
  artist_page : Option ArtistDoc
  albums : List String
  mixtapes : List String
  eps : List String
  singles : List String
  similar_artists_cat : List String
  top_songs : List String
deriving DecidableEq, Repr

/-- `ArtistMethods.__init__`. -/
def initArtistMethods : ArtistMethods :=
  { artist := "", url := "", artist_page := none, albums := [],
    mixtapes := [], eps := [], singles := [], similar_artists_cat := [],
    top_songs := [] }

/-- `str(KeyError(c))` for a missing dict key (outer quotes dropped). -/
def keyErrorMsg (c : String) : String := "KeyError: " ++ c

/-- The category-assignment tail of `__get_discography`: the five
`categorized_albums[...]` reads in source order, each mutating one
attribute; a missing key raises, leaving the earlier attributes already
updated (the error value carries that partially-mutated state). -/
def get_discography (doc : ArtistDoc) (s : ArtistMethods) :
    Except (String × ArtistMethods) ArtistMethods :=
  let m := classifyDoc doc.elements
  match lookupKey m "Albums" with
  | none => .error (keyErrorMsg "Albums", s)
  | some albums =>
    let s1 := { s with albums := albums }
    match lookupKey m "Mixtapes" with
    | none => .error (keyErrorMsg "Mixtapes", s1)
    | some mixtapes =>
      let s2 := { s1 with mixtapes := mixtapes }
      match lookupKey m "EPs" with
      | none => .error (keyErrorMsg "EPs", s2)
      | some eps =>
        let s3 := { s2 with eps := eps }
        match lookupKey m "SinglesView All" with
        | none => .error (keyErrorMsg "SinglesView All", s3)
        | some singles =>
          let s4 := { s3 with singles := singles }
          match lookupKey m "Similar Artists" with
          | none => .error (keyErrorMsg "Similar Artists", s4)
          | some sim => .ok { s4 with similar_artists_cat := sim }

/-- `ArtistMethods.__get_community_data`: collect the `songAlbum` link
texts of the page's rows into `top_songs`. -/
def get_community_data (doc : ArtistDoc) (s : ArtistMethods) : ArtistMethods :=
  { s with top_songs := doc.rows.filterMap id }

/-- `ArtistMethods.__set_artist_page(artist, url)`: record `artist` and
`url`, fetch and parse the page (the `web` collaborator), then eagerly
run the discography classification and the community scan.  The url
re-check guards at the top of `__get_discography` and
`__get_community_data` are statically false on this path (the url was
just set to the same `artist_url + artist + "/"` string both of them
recompute), so they are omitted. -/
def set_artist_page (web : String → ArtistDoc) (artist url : String)
    (s : ArtistMethods) : Except (String × ArtistMethods) ArtistMethods :=
  let doc := web url
  let s1 := { s with artist := artist, url := url, artist_page := some doc }
  match get_discography doc s1 with
  | .error e => .error e
  | .ok s2 => .ok (get_community_data doc s2)

/-- `self.artist_url` set in `ArtistMethods.__init__`. -/
def artist_url : String := "https://www.albumoftheyear.org/artist/"

/-- The `url = self.artist_url + artist + "/"` recomputed by every
accessor. -/
def artistPageUrl (artist : String) : String := artist_url ++ artist ++ "/"

/-- `ArtistMethods.artist_albums(artist)`: the single-slot cache check,
then the cached `albums` attribute.  Second pair component: 1 when a
fetch happened, 0 on the cached fast path; the error value carries the
partially-mutated state of a failed `__set_artist_page`. -/
def artist_albums (web : String → ArtistDoc) (artist : String)
    (s : ArtistMethods) :
    Except (String × ArtistMethods) (List String × ArtistMethods) × Nat :=
  if s.url ≠ artistPageUrl artist then
    match set_artist_page web artist (artistPageUrl artist) s with
    | .error e => (.error e, 1)
    | .ok s2 => (.ok (s2.albums, s2), 1)
  else (.ok (s.albums, s), 0)

/-- `ArtistMethods.artist_mixtapes(artist)`: same shape as
`artist_albums`, returning the `mixtapes` attribute. -/
def artist_mixtapes (web : String → ArtistDoc) (artist : String)
    (s : ArtistMethods) :
    Except (String × ArtistMethods) (List String × ArtistMethods) × Nat :=
  if s.url ≠ artistPageUrl artist then
    match set_artist_page web artist (artistPageUrl artist) s with
    | .error e => (.error e, 1)
    | .ok s2 => (.ok (s2.mixtapes, s2), 1)
  else (.ok (s.mixtapes, s), 0)

/-- The categories `__get_discography` requires, in assignment order. -/
def requiredCategories : List String :=
  ["Albums", "Mixtapes", "EPs", "SinglesView All", "Similar Artists"]

/-- The first required category absent from the classified dict — the one
whose `KeyError` a run of `__get_discography` would raise. -/
def firstMissingCategory (m : List (String × List String)) : Option String :=
  requiredCategories.find? (fun c => (lookupKey m c).isNone)

/-- A document on which `__get_discography` succeeds. -/
def discographyComplete (doc : ArtistDoc) : Bool :=
  (firstMissingCategory (classifyDoc doc.elements)).isNone

/-- The classified entries of one category of a document. -/
def categoryOf (doc : ArtistDoc) (c : String) : List String :=
  (lookupKey (classifyDoc doc.elements) c).getD []

/-- The state a successful `__set_artist_page(artist, url)` leaves
behind: every field freshly derived from the fetched document. -/
def populatedState (web : String → ArtistDoc) (artist url : String) :
    ArtistMethods :=
  { artist := artist, url := url, artist_page := some (web url),
    albums := categoryOf (web url) "Albums",
    mixtapes := categoryOf (web url) "Mixtapes",
    eps := categoryOf (web url) "EPs",
    singles := categoryOf (web url) "SinglesView All",
    similar_artists_cat := categoryOf (web url) "Similar Artists",
    top_songs := (web url).rows.filterMap id }

lemma set_artist_page_ok (web : String → ArtistDoc) (artist url : String)
    (s : ArtistMethods) (hc : discographyComplete (web url) = true) :
    set_artist_page web artist url s = .ok (populatedState web artist url) := by
  have hall : ∀ c ∈ requiredCategories,
      ∃ v, lookupKey (classifyDoc (web url).elements) c = some v := by
    intro c hcmem
    have hnone := List.find?_eq_none.mp
      (Option.isNone_iff_eq_none.mp hc) c hcmem
    cases h : lookupKey (classifyDoc (web url).elements) c with
    | none => exact absurd (by simp [h]) hnone
    | some v => exact ⟨v, rfl⟩
  obtain ⟨vA, hA⟩ := hall "Albums" (by simp [requiredCategories])
  obtain ⟨vM, hM⟩ := hall "Mixtapes" (by simp [requiredCategories])
  obtain ⟨vE, hE⟩ := hall "EPs" (by simp [requiredCategories])
  obtain ⟨vS, hS⟩ := hall "SinglesView All" (by simp [requiredCategories])
  obtain ⟨vR, hR⟩ := hall "Similar Artists" (by simp [requiredCategories])
  simp only [set_artist_page, get_discography, hA, hM, hE, hS, hR,
    get_community_data, populatedState, categoryOf]
  simp [hA, hM, hE, hS, hR]

lemma artistPageUrl_injective {a b : String}
    (h : artistPageUrl a = artistPageUrl b) : a = b := by
  have hd := congrArg String.data h
  simp only [artistPageUrl, String.data_append] at hd
  exact String.ext (List.append_cancel_left (List.append_cancel_right hd))

lemma initArtistMethods_url_ne (a : String) :
    initArtistMethods.url ≠ artistPageUrl a := by
  intro h
  have hlen := congrArg String.length h
  simp only [artistPageUrl, String.length_append] at hlen
  have h0 : (initArtistMethods.url).length = 0 := rfl
  have h1 : artist_url.length = 38 := by decide
  have h2 : ("/" : String).length = 1 := by decide
  omega

/-- C4: the Facade's one-slot URL cache.  A repeat access with the cached
url is a fetch-free no-op leaving the state untouched; an access with a
different url performs exactly one fetch and replaces the whole slot;
the initial state is empty (never equal to an artist page url); and in
the A, A, B, A call sequence the fetch counts are 1, 0, 1, 1 — the final
call recomputes A's albums from the web, not from a stale slot. -/
theorem cache_slot_state_machine (web : String → ArtistDoc) (a b : String)
    (s : ArtistMethods)
    (hA : discographyComplete (web (artistPageUrl a)) = true)
    (hB : discographyComplete (web (artistPageUrl b)) = true)
    (hab : a ≠ b) :
    (∀ t : ArtistMethods, t.url = artistPageUrl a →
      artist_albums web a t = (.ok (t.albums, t), 0)) ∧
    (initArtistMethods.url ≠ artistPageUrl a) ∧
    (s.url ≠ artistPageUrl a →
      artist_albums web a s =
        (.ok ((populatedState web a (artistPageUrl a)).albums,
          populatedState web a (artistPageUrl a)), 1) ∧
      (populatedState web a (artistPageUrl a)).url = artistPageUrl a ∧
      (populatedState web a (artistPageUrl a)).albums =
        categoryOf (web (artistPageUrl a)) "Albums") ∧
    (s.url ≠ artistPageUrl a → ∃ s1 s2 s3 : ArtistMethods,
      artist_albums web a s = (.ok (s1.albums, s1), 1) ∧
      artist_albums web a s1 = (.ok (s1.albums, s1), 0) ∧
      artist_albums web b s1 = (.ok (s2.albums, s2), 1) ∧
      artist_albums web a s2 = (.ok (s3.albums, s3), 1) ∧
      s3.albums = categoryOf (web (artistPageUrl a)) "Albums" ∧
      s1.albums = s3.albums) := by
  have hfast : ∀ t : ArtistMethods, t.url = artistPageUrl a →
      artist_albums web a t = (.ok (t.albums, t), 0) := by
    intro t ht
    simp only [artist_albums]
    rw [if_neg (by simp [ht])]
  have hmiss : ∀ t : ArtistMethods, t.url ≠ artistPageUrl a →
      artist_albums web a t =
        (.ok ((populatedState web a (artistPageUrl a)).albums,
          populatedState web a (artistPageUrl a)), 1) := by
    intro t ht
    simp only [artist_albums]
    rw [if_pos ht, set_artist_page_ok web a (artistPageUrl a) t hA]
  have hmissB : ∀ t : ArtistMethods, t.url ≠ artistPageUrl b →
      artist_albums web b t =
        (.ok ((populatedState web b (artistPageUrl b)).albums,
          populatedState web b (artistPageUrl b)), 1) := by
    intro t ht
    simp only [artist_albums]
    rw [if_pos ht, set_artist_page_ok web b (artistPageUrl b) t hB]
  have hurlab : artistPageUrl a ≠ artistPageUrl b :=
    fun h => hab (artistPageUrl_injective h)
  refine ⟨hfast, initArtistMethods_url_ne a, ?_, ?_⟩
  · intro hne
    exact ⟨hmiss s hne, rfl, rfl⟩
  · intro hne
    refine ⟨populatedState web a (artistPageUrl a),
      populatedState web b (artistPageUrl b),
      populatedState web a (artistPageUrl a), ?_, ?_, ?_, ?_, rfl, rfl⟩
    · exact hmiss s hne
    · exact hfast _ rfl
    · exact hmissB _ (by simpa [populatedState] using hurlab)
    · exact hmiss _ (by simpa [populatedState] using hurlab.symm)

/-- A complete artist document used by the cache witnesses. -/
def docComplete (tag : String) : ArtistDoc :=
  { elements := [.h2 "Albums", .div none (some tag),
                 .h2 "Mixtapes", .h2 "EPs", .h2 "SinglesView All",
                 .h2 "Similar Artists", .div (some "Twin") none],
    rows := [some "Song1", none] }

/-- Witness for `cache_slot_state_machine`: two concrete artist pages,
the A, A, B, A sequence from the empty initial state fetches 1, 0, 1, 1
times and the last call returns A's freshly classified albums. -/
theorem cache_slot_state_machine_witness :
    ∃ s1 s2 s3 : ArtistMethods,
      artist_albums
        (fun u => if u = artistPageUrl "a" then docComplete "A1" else docComplete "B1")
        "a" initArtistMethods = (.ok (s1.albums, s1), 1) ∧
      artist_albums
        (fun u => if u = artistPageUrl "a" then docComplete "A1" else docComplete "B1")
        "a" s1 = (.ok (s1.albums, s1), 0) ∧
      artist_albums
        (fun u => if u = artistPageUrl "a" then docComplete "A1" else docComplete "B1")
        "b" s1 = (.ok (s2.albums, s2), 1) ∧
      artist_albums
        (fun u => if u = artistPageUrl "a" then docComplete "A1" else docComplete "B1")
        "a" s2 = (.ok (s3.albums, s3), 1) ∧
      s3.albums = ["A1"] ∧ s1.albums = s3.albums := by
  have h := cache_slot_state_machine
    (fun u => if u = artistPageUrl "a" then docComplete "A1" else docComplete "B1")
    "a" "b" initArtistMethods (by decide) (by decide) (by decide)
  obtain ⟨-, hinit, -, hrun⟩ := h
  obtain ⟨s1, s2, s3, h1, h2, h3, h4, h5, h6⟩ := hrun hinit
  refine ⟨s1, s2, s3, h1, h2, h3, h4, ?_, h6⟩
  rw [h5]
  decide

lemma get_discography_first_missing (doc : ArtistDoc) (s : ArtistMethods)
    (c : String)
    (hc : firstMissingCategory (classifyDoc doc.elements) = some c) :
    ∃ s2, get_discography doc s = .error (keyErrorMsg c, s2) := by
  simp only [firstMissingCategory, requiredCategories] at hc
  cases h1 : lookupKey (classifyDoc doc.elements) "Albums" with
  | none =>
    rw [List.find?_cons_of_pos _ (by simp [h1])] at hc
    cases hc
    exact ⟨s, by simp only [get_discography, h1]⟩
  | some vA =>
    rw [List.find?_cons_of_neg _ (by simp [h1])] at hc
    cases h2 : lookupKey (classifyDoc doc.elements) "Mixtapes" with
    | none =>
      rw [List.find?_cons_of_pos _ (by simp [h2])] at hc
      cases hc
      exact ⟨{ s with albums := vA }, by simp only [get_discography, h1, h2]⟩
    | some vM =>
      rw [List.find?_cons_of_neg _ (by simp [h2])] at hc
      cases h3 : lookupKey (classifyDoc doc.elements) "EPs" with
      | none =>
        rw [List.find?_cons_of_pos _ (by simp [h3])] at hc
        cases hc
        exact ⟨{ s with albums := vA, mixtapes := vM },
          by simp only [get_discography, h1, h2, h3]⟩
      | some vE =>
        rw [List.find?_cons_of_neg _ (by simp [h3])] at hc
        cases h4 : lookupKey (classifyDoc doc.elements) "SinglesView All" with
        | none =>
          rw [List.find?_cons_of_pos _ (by simp [h4])] at hc
          cases hc
          exact ⟨{ s with albums := vA, mixtapes := vM, eps := vE },
            by simp only [get_discography, h1, h2, h3, h4]⟩
        | some vS =>
          rw [List.find?_cons_of_neg _ (by simp [h4])] at hc
          cases h5 : lookupKey (classifyDoc doc.elements) "Similar Artists" with
          | none =>
            rw [List.find?_cons_of_pos _ (by simp [h5])] at hc
            cases hc
            exact ⟨{ s with albums := vA, mixtapes := vM, eps := vE, singles := vS },
              by simp only [get_discography, h1, h2, h3, h4, h5]⟩
          | some vR =>
            rw [List.find?_cons_of_neg _ (by simp [h5])] at hc
            cases hc

/-- The counterexample document: category `Albums` present (with one
entry) but category `Mixtapes` absent. -/
def docMissingMixtapes : ArtistDoc :=
  { elements := [.h2 "Albums", .div none (some "OnlyAlbum"),
                 .h2 "EPs", .h2 "SinglesView All", .h2 "Similar Artists"],
    rows := [] }

/-- C5 counterexample: on a document whose `Albums` category is present
but whose `Mixtapes` heading is absent, requesting the *albums* (a
present category) from a fresh Facade still fails — with the
`KeyError` naming `Mixtapes` — because the classification assigns all
five categories eagerly during the first page access.  This refutes the
claim that a request for a present category does not fail on account of
a different category being absent. -/
theorem missing_category_counterexample :
    lookupKey (classifyDoc docMissingMixtapes.elements) "Albums" =
      some ["OnlyAlbum"] ∧
    (artist_albums (fun _ => docMissingMixtapes) "x" initArtistMethods).1 =
      .error (keyErrorMsg "Mixtapes",
        { artist := "x", url := artistPageUrl "x",
          artist_page := some docMissingMixtapes,
          albums := ["OnlyAlbum"], mixtapes := [], eps := [], singles := [],
          similar_artists_cat := [], top_songs := [] }) := by
  constructor
  · decide
  · decide

/-- C5 (amended): when a required discography category is absent, the
first accessor call that loads the artist document fails with the
`MissingCategory` fault naming the first absent category in assignment
order — whichever category the accessor itself requests, present or
not. -/
theorem missing_category_amended (web : String → ArtistDoc) (a : String)
    (s : ArtistMethods) (c : String)
    (hne : s.url ≠ artistPageUrl a)
    (hc : firstMissingCategory
      (classifyDoc (web (artistPageUrl a)).elements) = some c) :
    (∃ s2, artist_albums web a s = (.error (keyErrorMsg c, s2), 1)) ∧
    (∃ s2, artist_mixtapes web a s = (.error (keyErrorMsg c, s2), 1)) := by
  obtain ⟨s2, hs2⟩ := get_discography_first_missing (web (artistPageUrl a))
    { s with
      artist := a, url := artistPageUrl a,
      artist_page := some (web (artistPageUrl a)) } c hc
  constructor
  · refine ⟨s2, ?_⟩
    simp only [artist_albums]
    rw [if_pos hne]
    simp only [set_artist_page, hs2]
  · refine ⟨s2, ?_⟩
    simp only [artist_mixtapes]
    rw [if_pos hne]
    simp only [set_artist_page, hs2]

/-- Witness for `missing_category_amended`: applied to the concrete
Mixtapes-less document, from the fresh Facade state. -/
theorem missing_category_amended_witness :
    (∃ s2, artist_albums (fun _ => docMissingMixtapes) "x" initArtistMethods =
      (.error (keyErrorMsg "Mixtapes", s2), 1)) ∧
    (∃ s2, artist_mixtapes (fun _ => docMissingMixtapes) "x" initArtistMethods =
      (.error (keyErrorMsg "Mixtapes", s2), 1)) :=
  missing_category_amended (fun _ => docMissingMixtapes) "x" initArtistMethods
    "Mixtapes" (by decide) (by decide)

/-- Helper for `pySplit`: walk the characters accumulating the current
token (reversed); whitespace closes the token, and empty tokens are
dropped. -/
def splitWsAux : List Char → List Char → List String
  | [], cur => if cur = [] then [] else [⟨cur.reverse⟩]
  | c :: cs, cur =>
    if c.isWhitespace then
      if cur = [] then splitWsAux cs []
      else ⟨cur.reverse⟩ :: splitWsAux cs []
    else splitWsAux cs (c :: cur)

/-- Python `str.split()` with no separator, as used in
`user_rating_distribution`: split on whitespace runs, discarding empty
pieces. -/
def pySplit (s : String) : List String := splitWsAux s.data []

/-- The per-row computation of `UserMethods.user_rating_distribution`:
`tag_content.split()[-1].strip() if tag_content.strip() else "0"`.
When the stripped content is non-empty the split list is non-empty, so
the `[-1]` (modelled by `getLastD`) cannot hit its default. -/
def distRowValue (tag_content : String) : String :=
  if pyStrip tag_content ≠ "" then pyStrip ((pySplit tag_content).getLastD "")
  else "0"

/-- The `for i in range(11)` index loop of `user_rating_distribution`,
reading `tags[i]` for `i` in `idx ..` (`n` iterations left): an index
past the end raises `IndexError`. -/
def readRows (tags : List String) (idx : Nat) : Nat → Option (List String)
  | 0 => some []
  | n + 1 =>
    match tags[idx]? with
    | none => none
    | some t => (readRows tags (idx + 1) n).map (fun l => t :: l)

/-- `UserMethods.user_rating_distribution(user)`, applied to the texts of
the document's `distRow` elements (in document order): reads exactly the
first 11 rows, mapping each through the last-token-or-zero rule;
fewer than 11 rows raise the propagated `IndexError`. -/
def user_rating_distribution (tags : List String) : Except String (List String) :=
  match readRows tags 0 11 with
  | none => .error "IndexError: list index out of range"
  | some contents => .ok (contents.map distRowValue)

/-- The score-bucket labels of `user_rating_distribution_json`, in the
order the dict literal writes them. -/
def distLabels : List String :=
  ["100", "90-99", "80-89", "70-79", "60-69", "50-59", "40-49",
   "30-39", "20-29", "10-19", "0-9"]

/-- `UserMethods.user_rating_distribution_json(user)`: the bucket-to-value
dict, modelled as the label/value pair list in insertion order. -/
def user_rating_distribution_json (tags : List String) :
    Except String (List (String × String)) :=
  match user_rating_distribution tags with
  | .error e => .error e
  | .ok vals => .ok (distLabels.zip vals)

lemma readRows_some (tags : List String) :
    ∀ (n idx : Nat), idx + n ≤ tags.length →
      readRows tags idx n = some ((tags.drop idx).take n) := by
  intro n
  induction n with
  | zero => intro idx h; simp [readRows]
  | succ n ih =>
    intro idx h
    have hidx : idx < tags.length := by omega
    have hget : tags[idx]? = some tags[idx] := List.getElem?_eq_getElem hidx
    have hdrop : tags.drop idx = tags[idx] :: tags.drop (idx + 1) :=
      List.drop_eq_getElem_cons hidx
    simp only [readRows, hget, ih (idx + 1) (by omega), hdrop,
      List.take_succ_cons]
    rfl

lemma readRows_none (tags : List String) :
    ∀ (n idx : Nat), idx ≤ tags.length → tags.length < idx + n →
      readRows tags idx n = none := by
  intro n
  induction n with
  | zero => intro idx h1 h2; omega
  | succ n ih =>
    intro idx h1 h2
    rcases Nat.lt_or_ge idx tags.length with hlt | hge
    · have hget : tags[idx]? = some tags[idx] := List.getElem?_eq_getElem hlt
      simp only [readRows, hget, ih (idx + 1) (by omega) (by omega)]
      rfl
    · have hget : tags[idx]? = none := List.getElem?_eq_none (by omega)
      simp only [readRows, hget]

/-- C10: whenever the document has at least 11 `distRow` elements,
`user_rating_distribution` returns exactly 11 strings — the first 11
rows each mapped to the last whitespace-separated token of its text, or
"0" for a blank row — and the JSON form pairs them with the bucket
labels "100" down to "0-9" in that order; with fewer than 11 rows the
operation faults instead of returning a shorter list. -/
theorem rating_distribution_correct (tags : List String) :
    (tags.length < 11 →
      user_rating_distribution tags = .error "IndexError: list index out of range") ∧
    (11 ≤ tags.length →
      user_rating_distribution tags = .ok ((tags.take 11).map distRowValue) ∧
      ((tags.take 11).map distRowValue).length = 11 ∧
      user_rating_distribution_json tags =
        .ok (distLabels.zip ((tags.take 11).map distRowValue)) ∧
      (distLabels.zip ((tags.take 11).map distRowValue)).map Prod.fst =
        distLabels) := by
  constructor
  · intro h
    rw [user_rating_distribution, readRows_none tags 11 0 (by omega) (by omega)]
  · intro h
    have hcore : user_rating_distribution tags =
        .ok ((tags.take 11).map distRowValue) := by
      rw [user_rating_distribution, readRows_some tags 11 0 (by omega)]
      simp
    have hlen : ((tags.take 11).map distRowValue).length = 11 := by
      simp only [List.length_map, List.length_take]
      omega
    refine ⟨hcore, hlen, ?_, ?_⟩
    · rw [user_rating_distribution_json, hcore]
    · rw [List.map_fst_zip]
      rw [hlen]
      decide

/-- Witness for `rating_distribution_correct`: a 12-row document (one
blank row, one multi-token row) yields the 11 mapped values with their
bucket labels; a 5-row document faults. -/
theorem rating_distribution_correct_witness :
    user_rating_distribution
      ["100 3", "90-99 17", "", "70-79 2 5", "60-69 0", "50-59 1",
       "40-49 0", "30-39 4", "20-29 0", "10-19 0", "0-9 9", "extra 99"] =
      .ok ["3", "17", "0", "5", "0", "1", "0", "4", "0", "0", "9"] ∧
    user_rating_distribution ["100 3", "90-99 17", "", "70-79 2", "60-69 0"] =
      .error "IndexError: list index out of range" := by
  constructor
  · have h := (rating_distribution_correct
      ["100 3", "90-99 17", "", "70-79 2 5", "60-69 0", "50-59 1",
       "40-49 0", "30-39 4", "20-29 0", "10-19 0", "0-9 9", "extra 99"]).2
      (by decide)
    rw [h.1]
    decide
  · exact (rating_distribution_correct
      ["100 3", "90-99 17", "", "70-79 2", "60-69 0"]).1 (by decide)

/-- The short escapes of `json.dumps` (its `ESCAPE_DCT`): quote,
backslash, and the five C0 controls, each rendered as a backslash plus
this letter. -/
def shortEscapeLetter (c : Char) : Option Char :=
  if c = '"' then some '"'
  else if c = '\\' then some '\\'
  else if c = '\x08' then some 'b'
  else if c = '\x0c' then some 'f'
  else if c = '\n' then some 'n'
  else if c = '\r' then some 'r'
  else if c = '\t' then some 't'
  else none

/-- Lower-case hex digit, as `json.dumps` emits in `\uXXXX`. -/
def toHexDigit (n : Nat) : Char :=
  if n < 10 then Char.ofNat (48 + n) else Char.ofNat (87 + n)

/-- The four hex digits of a value below `0x10000`. -/
def hex4 (n : Nat) : List Char :=
  [toHexDigit (n / 4096 % 16), toHexDigit (n / 256 % 16),
   toHexDigit (n / 16 % 16), toHexDigit (n % 16)]

/-- One character of `json.dumps` output with the default
`ensure_ascii=True`: a short escape when applicable, printable ASCII
verbatim, `\uXXXX` for other BMP codepoints, and a surrogate pair of
`\uXXXX` escapes beyond the BMP. -/
def escChar (c : Char) : List Char :=
  match shortEscapeLetter c with
  | some l => ['\\', l]
  | none =>
    if 0x20 ≤ c.toNat ∧ c.toNat ≤ 0x7e then [c]
    else if c.toNat < 0x10000 then ['\\', 'u'] ++ hex4 c.toNat
    else
      ['\\', 'u'] ++ hex4 (0xd800 + (c.toNat - 0x10000) / 1024) ++
      (['\\', 'u'] ++ hex4 (0xdc00 + (c.toNat - 0x10000) % 1024))

/-- The `json.dumps` encoding of a string body (without the enclosing
quotes). -/
def escList : List Char → List Char
  | [] => []
  | c :: cs => escChar c ++ escList cs

/-- A JSON string value as `json.dumps` renders it. -/
def jsonEscape (s : String) : String := ⟨escList s.data⟩

/-- `Album.to_JSON`:
`json.dumps(self.__dict__, sort_keys=True, indent=0)` — the three
attributes in sorted key order (`artist`, `name`, `release_date`),
`indent=0` putting each item on its own line. -/
def to_JSON (a : Album) : String :=
  "\x7b\n\"artist\": \"" ++ jsonEscape a.artist ++
  "\",\n\"name\": \"" ++ jsonEscape a.name ++
  "\",\n\"release_date\": \"" ++ jsonEscape a.release_date ++ "\"\n\x7d"

/-- Hex digit value for the decoder (both letter cases, as `json.loads`
accepts). -/
def hexVal (c : Char) : Option Nat :=
  if 48 ≤ c.toNat ∧ c.toNat ≤ 57 then some (c.toNat - 48)
  else if 97 ≤ c.toNat ∧ c.toNat ≤ 102 then some (c.toNat - 87)
  else if 65 ≤ c.toNat ∧ c.toNat ≤ 70 then some (c.toNat - 55)
  else none

/-- Value of a four-digit hex run. -/
def hex4Val (a b c d : Char) : Option Nat :=
  match hexVal a, hexVal b, hexVal c, hexVal d with
  | some x, some y, some z, some w => some (((x * 16 + y) * 16 + z) * 16 + w)
  | _, _, _, _ => none

/-- The decoder side of the two-character escapes. -/
def unescapeShort (e : Char) : Option Char :=
  if e = '"' then some '"'
  else if e = '\\' then some '\\'
  else if e = '/' then some '/'
  else if e = 'b' then some '\x08'
  else if e = 'f' then some '\x0c'
  else if e = 'n' then some '\n'
  else if e = 'r' then some '\r'
  else if e = 't' then some '\t'
  else none

/-- Decoder: the low half of a surrogate pair (`\uXXXX` with the value
in `0xdc00..0xdfff`), combined with the already-read high half `n`. -/
def parseLowSurrogate (n : Nat) : List Char → Option (Char × List Char)
  | s1 :: s2 :: a :: b :: c :: d :: rest =>
    if s1 = '\\' ∧ s2 = 'u' then
      match hex4Val a b c d with
      | none => none
      | some m =>
        if 0xdc00 ≤ m ∧ m ≤ 0xdfff then
          some (Char.ofNat ((n - 0xd800) * 1024 + (m - 0xdc00) + 0x10000), rest)
        else none
    else none
  | _ => none

/-- Decoder: a `\uXXXX` escape body (after the `\u`): a high surrogate
must be followed by a low one; a lone low surrogate is rejected. -/
def parseU : List Char → Option (Char × List Char)
  | a :: b :: c :: d :: rest =>
    match hex4Val a b c d with
    | none => none
    | some n =>
      if 0xd800 ≤ n ∧ n ≤ 0xdbff then parseLowSurrogate n rest
      else if 0xdc00 ≤ n ∧ n ≤ 0xdfff then none
      else some (Char.ofNat n, rest)
  | _ => none

/-- Decoder: an escape body (after the backslash). -/
def parseEscape : List Char → Option (Char × List Char)
  | [] => none
  | e :: rest =>
    if e = 'u' then parseU rest
    else
      match unescapeShort e with
      | some ch => some (ch, rest)
      | none => none

/-- Decoder: one character of a JSON string body (`none` on the closing
quote or malformed input). -/
def parseJsonChar : List Char → Option (Char × List Char)
  | [] => none
  | c :: rest =>
    if c = '"' then none
    else if c = '\\' then parseEscape rest
    else some (c, rest)

/-- Decoder: a JSON string body up to and including the closing quote,
fuelled by the input length (each step consumes at least one input
character). -/
def parseJStringF : Nat → List Char → Option (List Char × List Char)
  | 0, _ => none
  | _ + 1, [] => none
  | fuel + 1, c :: rest =>
    if c = '"' then some ([], rest)
    else
      match parseJsonChar (c :: rest) with
      | none => none
      | some p => (parseJStringF fuel p.2).map (fun q => (p.1 :: q.1, q.2))

/-- Decoder entry point for one string body. -/
def parseJString (l : List Char) : Option (List Char × List Char) :=
  parseJStringF l.length l

/-- Literal matcher for the fixed scaffolding of the object form. -/
def expectChars : List Char → List Char → Option (List Char)
  | [], input => some input
  | _ :: _, [] => none
  | c :: cs, d :: input => if c = d then expectChars cs input else none

/-- `json.loads` specialised to the exact shape `Album.to_JSON` emits:
the three known keys in sorted order, `indent=0` layout, string values. -/
def parseAlbumJSON (s : String) : Option Album :=
  match expectChars ("\x7b\n\"artist\": \"").data s.data with
  | none => none
  | some r1 =>
    match parseJString r1 with
    | none => none
    | some (artistChars, r2) =>
      match expectChars (",\n\"name\": \"").data r2 with
      | none => none
      | some r3 =>
        match parseJString r3 with
        | none => none
        | some (nameChars, r4) =>
          match expectChars (",\n\"release_date\": \"").data r4 with
          | none => none
          | some r5 =>
            match parseJString r5 with
            | none => none
            | some (dateChars, r6) =>
              match expectChars ("\n\x7d").data r6 with
              | none => none
              | some r7 =>
                if r7 = [] then
                  some { name := ⟨nameChars⟩, artist := ⟨artistChars⟩,
                         release_date := ⟨dateChars⟩ }
                else none

lemma hexVal_toHexDigit {k : Nat} (hk : k < 16) :
    hexVal (toHexDigit k) = some k := by
  interval_cases k <;> decide

lemma hex4Val_hex4 {n : Nat} (hn : n < 0x10000) :
    hex4Val (toHexDigit (n / 4096 % 16)) (toHexDigit (n / 256 % 16))
      (toHexDigit (n / 16 % 16)) (toHexDigit (n % 16)) = some n := by
  rw [hex4Val, hexVal_toHexDigit (by omega), hexVal_toHexDigit (by omega),
    hexVal_toHexDigit (by omega), hexVal_toHexDigit (by omega)]
  exact congrArg some (by omega)

lemma char_not_surrogate (c : Char) :
    ¬ (0xd800 ≤ c.toNat ∧ c.toNat ≤ 0xdbff) ∧
    ¬ (0xdc00 ≤ c.toNat ∧ c.toNat ≤ 0xdfff) ∧ c.toNat < 0x110000 := by
  have hv : c.toNat < 0xd800 ∨ (0xdfff < c.toNat ∧ c.toNat < 0x110000) := c.valid
  omega

lemma parseJsonChar_cons (c : Char) (rest : List Char) :
    parseJsonChar (c :: rest) =
      if c = '"' then none
      else if c = '\\' then parseEscape rest
      else some (c, rest) := rfl

lemma parseEscape_cons (e : Char) (rest : List Char) :
    parseEscape (e :: rest) =
      (if e = 'u' then parseU rest
       else
        match unescapeShort e with
        | some ch => some (ch, rest)
        | none => none) := rfl

lemma parseU_cons (a b c d : Char) (rest : List Char) :
    parseU (a :: b :: c :: d :: rest) =
      (match hex4Val a b c d with
       | none => none
       | some n =>
         if 0xd800 ≤ n ∧ n ≤ 0xdbff then parseLowSurrogate n rest
         else if 0xdc00 ≤ n ∧ n ≤ 0xdfff then none
         else some (Char.ofNat n, rest)) := rfl

lemma parseJsonChar_backslash (rest : List Char) :
    parseJsonChar ('\\' :: rest) = parseEscape rest := by
  rw [parseJsonChar_cons, if_neg (by decide), if_pos rfl]

lemma parseEscape_u (rest : List Char) : parseEscape ('u' :: rest) = parseU rest := by
  rw [parseEscape_cons, if_pos rfl]

lemma parseU_cons_val (a b c d : Char) (rest : List Char) {n : Nat}
    (h : hex4Val a b c d = some n) :
    parseU (a :: b :: c :: d :: rest) =
      if 0xd800 ≤ n ∧ n ≤ 0xdbff then parseLowSurrogate n rest
      else if 0xdc00 ≤ n ∧ n ≤ 0xdfff then none
      else some (Char.ofNat n, rest) := by
  rw [parseU_cons, h]

lemma parseLowSurrogate_cons_val (n : Nat) (a b c d : Char) (rest : List Char)
    {m : Nat} (h : hex4Val a b c d = some m) :
    parseLowSurrogate n ('\\' :: 'u' :: a :: b :: c :: d :: rest) =
      if 0xdc00 ≤ m ∧ m ≤ 0xdfff then
        some (Char.ofNat ((n - 0xd800) * 1024 + (m - 0xdc00) + 0x10000), rest)
      else none := by
  have hstep : parseLowSurrogate n ('\\' :: 'u' :: a :: b :: c :: d :: rest) =
      (if ('\\' : Char) = '\\' ∧ ('u' : Char) = 'u' then
        match hex4Val a b c d with
        | none => none
        | some m =>
          if 0xdc00 ≤ m ∧ m ≤ 0xdfff then
            some (Char.ofNat ((n - 0xd800) * 1024 + (m - 0xdc00) + 0x10000), rest)
          else none
      else none) := rfl
  rw [hstep, if_pos ⟨rfl, rfl⟩, h]

lemma parseJsonChar_escChar (c : Char) (tail : List Char) :
    parseJsonChar (escChar c ++ tail) = some (c, tail) := by
  obtain ⟨hs1, hs2, hlt⟩ := char_not_surrogate c
  by_cases h1 : c = '"'
  · subst h1; rfl
  by_cases h2 : c = '\\'
  · subst h2; rfl
  by_cases h3 : c = '\x08'
  · subst h3; rfl
  by_cases h4 : c = '\x0c'
  · subst h4; rfl
  by_cases h5 : c = '\n'
  · subst h5; rfl
  by_cases h6 : c = '\r'
  · subst h6; rfl
  by_cases h7 : c = '\t'
  · subst h7; rfl
  have hse : shortEscapeLetter c = none := by
    simp [shortEscapeLetter, h1, h2, h3, h4, h5, h6, h7]
  by_cases hp : 0x20 ≤ c.toNat ∧ c.toNat ≤ 0x7e
  · have hesc : escChar c = [c] := by simp [escChar, hse, hp]
    rw [hesc, List.singleton_append, parseJsonChar_cons, if_neg h1, if_neg h2]
  by_cases hb : c.toNat < 0x10000
  · have hesc : escChar c = ['\\', 'u'] ++ hex4 c.toNat := by
      simp [escChar, hse, hp, hb]
    rw [hesc]
    simp only [hex4, List.cons_append, List.nil_append]
    rw [parseJsonChar_backslash, parseEscape_u,
      parseU_cons_val _ _ _ _ _ (hex4Val_hex4 hb), if_neg hs1, if_neg hs2,
      Char.ofNat_toNat]
  · have hesc : escChar c =
        ['\\', 'u'] ++ hex4 (0xd800 + (c.toNat - 0x10000) / 1024) ++
        (['\\', 'u'] ++ hex4 (0xdc00 + (c.toNat - 0x10000) % 1024)) := by
      simp [escChar, hse, hp, hb]
    rw [hesc]
    simp only [hex4, List.cons_append, List.nil_append, List.append_assoc]
    rw [parseJsonChar_backslash, parseEscape_u,
      parseU_cons_val _ _ _ _ _
        (hex4Val_hex4 (show 0xd800 + (c.toNat - 0x10000) / 1024 < 0x10000 by omega)),
      if_pos (show 0xd800 ≤ 0xd800 + (c.toNat - 0x10000) / 1024 ∧
        0xd800 + (c.toNat - 0x10000) / 1024 ≤ 0xdbff by omega),
      parseLowSurrogate_cons_val _ _ _ _ _ _
        (hex4Val_hex4 (show 0xdc00 + (c.toNat - 0x10000) % 1024 < 0x10000 by omega)),
      if_pos (show 0xdc00 ≤ 0xdc00 + (c.toNat - 0x10000) % 1024 ∧
        0xdc00 + (c.toNat - 0x10000) % 1024 ≤ 0xdfff by omega),
      show (0xd800 + (c.toNat - 0x10000) / 1024 - 0xd800) * 1024 +
        (0xdc00 + (c.toNat - 0x10000) % 1024 - 0xdc00) + 0x10000 = c.toNat by omega,
      Char.ofNat_toNat]

lemma escChar_head (c : Char) :
    ∃ d drest, escChar c = d :: drest ∧ d ≠ '"' := by
  by_cases h1 : c = '"'
  · exact ⟨'\\', _, by subst h1; rfl, by decide⟩
  by_cases h2 : c = '\\'
  · exact ⟨'\\', _, by subst h2; rfl, by decide⟩
  by_cases h3 : c = '\x08'
  · exact ⟨'\\', _, by subst h3; rfl, by decide⟩
  by_cases h4 : c = '\x0c'
  · exact ⟨'\\', _, by subst h4; rfl, by decide⟩
  by_cases h5 : c = '\n'
  · exact ⟨'\\', _, by subst h5; rfl, by decide⟩
  by_cases h6 : c = '\r'
  · exact ⟨'\\', _, by subst h6; rfl, by decide⟩
  by_cases h7 : c = '\t'
  · exact ⟨'\\', _, by subst h7; rfl, by decide⟩
  have hse : shortEscapeLetter c = none := by
    simp [shortEscapeLetter, h1, h2, h3, h4, h5, h6, h7]
  by_cases hp : 0x20 ≤ c.toNat ∧ c.toNat ≤ 0x7e
  · exact ⟨c, [], by simp [escChar, hse, hp], h1⟩
  by_cases hb : c.toNat < 0x10000
  · exact ⟨'\\', 'u' :: hex4 c.toNat, by simp [escChar, hse, hp, hb], by decide⟩
  · have hesc : escChar c =
        ['\\', 'u'] ++ hex4 (0xd800 + (c.toNat - 0x10000) / 1024) ++
        (['\\', 'u'] ++ hex4 (0xdc00 + (c.toNat - 0x10000) % 1024)) := by
      simp [escChar, hse, hp, hb]
    refine ⟨'\\', ('u' :: hex4 (0xd800 + (c.toNat - 0x10000) / 1024)) ++
      (['\\', 'u'] ++ hex4 (0xdc00 + (c.toNat - 0x10000) % 1024)), ?_, by decide⟩
    rw [hesc]
    rfl

lemma parseJStringF_cons (fuel : Nat) (c : Char) (rest : List Char) :
    parseJStringF (fuel + 1) (c :: rest) =
      (if c = '"' then some ([], rest)
       else
        match parseJsonChar (c :: rest) with
        | none => none
        | some p => (parseJStringF fuel p.2).map (fun q => (p.1 :: q.1, q.2))) := rfl

lemma parseJStringF_escList :
    ∀ (cs : List Char) (fuel : Nat) (tail : List Char),
      (escList cs).length < fuel →
      parseJStringF fuel (escList cs ++ '"' :: tail) = some (cs, tail) := by
  intro cs
  induction cs with
  | nil =>
    intro fuel tail hf
    obtain ⟨f, rfl⟩ : ∃ f, fuel = f + 1 := ⟨fuel - 1, by omega⟩
    rw [show escList [] ++ '"' :: tail = '"' :: tail from rfl,
      parseJStringF_cons, if_pos rfl]
  | cons c cs ih =>
    intro fuel tail hf
    obtain ⟨f, rfl⟩ : ∃ f, fuel = f + 1 := ⟨fuel - 1, by omega⟩
    obtain ⟨d, drest, hdE, hdq⟩ := escChar_head c
    have hE : escList (c :: cs) ++ '"' :: tail =
        escChar c ++ (escList cs ++ '"' :: tail) := by
      rw [escList, List.append_assoc]
    have hlen : (escList (c :: cs)).length =
        (escChar c).length + (escList cs).length := by
      rw [escList, List.length_append]
    have hpos : 0 < (escChar c).length := by rw [hdE]; simp
    rw [hE, hdE, List.cons_append, parseJStringF_cons, if_neg hdq,
      ← List.cons_append, ← hdE, parseJsonChar_escChar c]
    show (parseJStringF f (escList cs ++ '"' :: tail)).map
      (fun q => (c :: q.1, q.2)) = some (c :: cs, tail)
    rw [ih f tail (by omega)]
    rfl

lemma parseJString_escList (cs tail : List Char) :
    parseJString (escList cs ++ '"' :: tail) = some (cs, tail) := by
  rw [parseJString]
  exact parseJStringF_escList cs _ tail
    (by simp only [List.length_append, List.length_cons]; omega)

lemma stringMk_data (s : String) : (⟨s.data⟩ : String) = s := rfl

lemma jsonEscape_data (s : String) : (jsonEscape s).data = escList s.data := rfl

set_option maxHeartbeats 1000000 in
/-- C7: `to_JSON` followed by JSON decoding is the identity on the
release record — the decoded `Album` carries the same title (`name`),
`artist` and `release_date` values, for every record. -/
theorem to_JSON_round_trip (a : Album) : parseAlbumJSON (to_JSON a) = some a := by
  simp [parseAlbumJSON, to_JSON, jsonEscape_data, expectChars,
    parseJString_escList, stringMk_data]

end AOTY
